import Mathlib

/-!
Verification of the tennis serve analyzer (tennis_serve_analyzer.py,
update_data.py) against its natural-language specification.

The Python code is shallowly embedded over ℚ.  Randomness
(`np.random.random()` draws in [0,1)) is modelled as an explicit stream
`s : ℕ → ℚ` of draws together with an index that advances as draws are
consumed, exactly in the order the Python code consumes them.
-/

/-- Serve-outcome model, from `calculate_serve_advantage`
(tennis_serve_analyzer.py line 178 / update_data.py line 121):
`only_first = first_in_pct * first_win_pct + (1 - first_in_pct) * first_in_pct * first_win_pct`. -/
def only_first_expected (first_in_pct first_win_pct : ℚ) : ℚ :=
  first_in_pct * first_win_pct + (1 - first_in_pct) * first_in_pct * first_win_pct

/-- From `calculate_serve_advantage` (tennis_serve_analyzer.py line 179 /
update_data.py line 122):
`traditional = first_in_pct * first_win_pct + (1 - first_in_pct) * second_win_pct`. -/
def traditional_expected (first_in_pct first_win_pct second_win_pct : ℚ) : ℚ :=
  first_in_pct * first_win_pct + (1 - first_in_pct) * second_win_pct

/-- From `calculate_serve_advantage` (tennis_serve_analyzer.py line 182 /
update_data.py line 123):
`only_first_better = (first_in_pct * first_win_pct) > second_win_pct`. -/
def only_first_better (first_in_pct first_win_pct second_win_pct : ℚ) : Bool :=
  decide (first_in_pct * first_win_pct > second_win_pct)

/-- Claim C2: for every input with firstIn in (0,1], firstWin in (0,1],
secondWin in [0,1], the ServeOutcomeModel computes exactly
onlyFirstExpected = firstIn*firstWin + (1-firstIn)*firstIn*firstWin and
traditionalExpected = firstIn*firstWin + (1-firstIn)*secondWin. -/
theorem serve_outcome_model_formulas (fi fw sw : ℚ)
    (hfi0 : 0 < fi) (hfi1 : fi ≤ 1) (hfw0 : 0 < fw) (hfw1 : fw ≤ 1)
    (hsw0 : 0 ≤ sw) (hsw1 : sw ≤ 1) :
    only_first_expected fi fw = fi * fw + (1 - fi) * fi * fw ∧
    traditional_expected fi fw sw = fi * fw + (1 - fi) * sw :=
  ⟨rfl, rfl⟩

theorem serve_outcome_model_formulas_witness :
    only_first_expected (1/2) (3/4) = (1/2) * (3/4) + (1 - 1/2) * (1/2) * (3/4) ∧
    traditional_expected (1/2) (3/4) (2/5) = (1/2) * (3/4) + (1 - 1/2) * (2/5) :=
  serve_outcome_model_formulas (1/2) (3/4) (2/5)
    (by norm_num) (by norm_num) (by norm_num) (by norm_num) (by norm_num) (by norm_num)

/-- Claim C6: for every input with firstIn, firstWin in (0,1] and secondWin
in [0,1], the onlyFirstBetter flag is true iff firstIn*firstWin > secondWin,
as an exact boolean equivalence with no tolerance. -/
theorem only_first_better_iff (fi fw sw : ℚ)
    (hfi0 : 0 < fi) (hfi1 : fi ≤ 1) (hfw0 : 0 < fw) (hfw1 : fw ≤ 1)
    (hsw0 : 0 ≤ sw) (hsw1 : sw ≤ 1) :
    only_first_better fi fw sw = true ↔ fi * fw > sw := by
  simp [only_first_better]

theorem only_first_better_iff_witness :
    (only_first_better (1/2) (3/4) (1/4) = true ↔ (1/2 : ℚ) * (3/4) > 1/4) :=
  only_first_better_iff (1/2) (3/4) (1/4)
    (by norm_num) (by norm_num) (by norm_num) (by norm_num) (by norm_num) (by norm_num)

/-- Claim C7: for all firstIn, firstWin in (0,1] and secondWin in [0,1],
the computed onlyFirstExpected and traditionalExpected values both lie in
the interval [0,1]. -/
theorem expected_values_in_unit_interval (fi fw sw : ℚ)
    (hfi0 : 0 < fi) (hfi1 : fi ≤ 1) (hfw0 : 0 < fw) (hfw1 : fw ≤ 1)
    (hsw0 : 0 ≤ sw) (hsw1 : sw ≤ 1) :
    (0 ≤ only_first_expected fi fw ∧ only_first_expected fi fw ≤ 1) ∧
    (0 ≤ traditional_expected fi fw sw ∧ traditional_expected fi fw sw ≤ 1) := by
  unfold only_first_expected traditional_expected
  have h1fi : (0:ℚ) ≤ 1 - fi := by linarith
  have hp : 0 ≤ fi * fw := mul_nonneg hfi0.le hfw0.le
  have hq : 0 ≤ (1 - fi) * fi * fw := mul_nonneg (mul_nonneg h1fi hfi0.le) hfw0.le
  have hr : 0 ≤ (1 - fi) * sw := mul_nonneg h1fi hsw0
  refine ⟨⟨?_, ?_⟩, ?_, ?_⟩
  · linarith
  · nlinarith [sq_nonneg (1 - fi), mul_nonneg (mul_nonneg h1fi h1fi) hp,
      mul_nonneg hp (by linarith : (0:ℚ) ≤ 1 - fw)]
  · linarith
  · nlinarith [mul_nonneg h1fi (by linarith : (0:ℚ) ≤ 1 - sw)]

theorem expected_values_in_unit_interval_witness :
    ((0 ≤ only_first_expected (1/2) (3/4) ∧ only_first_expected (1/2) (3/4) ≤ 1) ∧
     (0 ≤ traditional_expected (1/2) (3/4) (2/5) ∧
      traditional_expected (1/2) (3/4) (2/5) ≤ 1)) :=
  expected_values_in_unit_interval (1/2) (3/4) (2/5)
    (by norm_num) (by norm_num) (by norm_num) (by norm_num) (by norm_num) (by norm_num)

/-- Claim C8 counterexample: at firstIn = 1, firstWin = 1, secondWin = 0 the
flag onlyFirstBetter is true and firstIn*firstWin differs from secondWin
(so this is not the claimed boundary), yet benefit = 0, not > 0. -/
theorem benefit_sign_counterexample :
    only_first_better 1 1 0 = true ∧ (1:ℚ) * 1 ≠ 0 ∧
    ¬(only_first_expected 1 1 - traditional_expected 1 1 0 > 0) := by
  refine ⟨by norm_num [only_first_better], by norm_num, ?_⟩
  simp [only_first_expected, traditional_expected]

/-- Claim C8 (amended): for firstIn in (0,1) — strictly below 1, which is
what the analysis pass guarantees for emitted records — firstWin in (0,1]
and secondWin in [0,1], the sign of benefit = onlyFirstExpected −
traditionalExpected agrees with onlyFirstBetter (benefit > 0 iff the flag
is true, benefit < 0 iff it is false), except exactly at the boundary
firstIn*firstWin == secondWin.  At firstIn = 1 the benefit is 0 regardless
of the flag. -/
theorem benefit_sign_matches_flag (fi fw sw : ℚ)
    (hfi0 : 0 < fi) (hfi1 : fi < 1) (hfw0 : 0 < fw) (hfw1 : fw ≤ 1)
    (hsw0 : 0 ≤ sw) (hsw1 : sw ≤ 1) (hb : fi * fw ≠ sw) :
    (only_first_expected fi fw - traditional_expected fi fw sw > 0 ↔
      only_first_better fi fw sw = true) ∧
    (only_first_expected fi fw - traditional_expected fi fw sw < 0 ↔
      only_first_better fi fw sw = false) := by
  have hkey : only_first_expected fi fw - traditional_expected fi fw sw =
      (1 - fi) * (fi * fw - sw) := by
    unfold only_first_expected traditional_expected; ring
  have h1fi : (0:ℚ) < 1 - fi := by linarith
  rcases lt_or_gt_of_ne hb with hlt | hgt
  · have hneg : (1 - fi) * (fi * fw - sw) < 0 :=
      mul_neg_of_pos_of_neg h1fi (by linarith)
    constructor
    · constructor
      · intro h; rw [hkey] at h; linarith
      · intro h; simp [only_first_better] at h; linarith
    · constructor
      · intro _; simp [only_first_better]; linarith
      · intro _; rw [hkey]; linarith
  · have hpos : 0 < (1 - fi) * (fi * fw - sw) :=
      mul_pos h1fi (by linarith)
    constructor
    · constructor
      · intro _; simp [only_first_better]; linarith
      · intro _; rw [hkey]; linarith
    · constructor
      · intro h; rw [hkey] at h; linarith
      · intro h; simp [only_first_better] at h; linarith

theorem benefit_sign_matches_flag_witness :
    ((only_first_expected (1/2) (1/2) - traditional_expected (1/2) (1/2) 0 > 0 ↔
      only_first_better (1/2) (1/2) 0 = true) ∧
     (only_first_expected (1/2) (1/2) - traditional_expected (1/2) (1/2) 0 < 0 ↔
      only_first_better (1/2) (1/2) 0 = false)) :=
  benefit_sign_matches_flag (1/2) (1/2) 0
    (by norm_num) (by norm_num) (by norm_num) (by norm_num) (by norm_num) (by norm_num)
    (by norm_num)

/-- Result record of `simulate_match_outcome`
(tennis_serve_analyzer.py lines 126-132). -/
structure SimResult where
  traditional_wins : ℕ
  only_first_wins : ℕ
  traditional_prob : ℚ
  only_first_prob : ℚ
  num_simulations : ℤ
deriving DecidableEq, Repr

/-- One traditional-strategy service point, from `simulate_match_outcome`
(tennis_serve_analyzer.py lines 89-97): draw for first-serve-in; on
success draw against first_win_pct, on failure draw against
second_win_pct.  Returns whether the point was won and the next unused
stream index (two draws are consumed either way). -/
def tradPoint (fi fw sw : ℚ) (s : ℕ → ℚ) (k : ℕ) : Bool × ℕ :=
  if s k < fi then (decide (s (k+1) < fw), k+2)
  else (decide (s (k+1) < sw), k+2)

/-- One only-first-strategy service point, from `simulate_match_outcome`
(tennis_serve_analyzer.py lines 101-111): draw for first-serve-in; on
success draw against first_win_pct; on failure re-draw for first-serve-in
and, on success, draw against first_win_pct, else the point is lost. -/
def onlyFirstPoint (fi fw : ℚ) (s : ℕ → ℚ) (k : ℕ) : Bool × ℕ :=
  if s k < fi then (decide (s (k+1) < fw), k+2)
  else if s (k+1) < fi then (decide (s (k+2) < fw), k+3)
  else (false, k+2)

/-- The inner `for _ in range(service_points)` loop of
`simulate_match_outcome`: applies the per-point step once per service
point, in stream order, returning the number of points won and the next
unused stream index. -/
def runPoints (step : (ℕ → ℚ) → ℕ → Bool × ℕ) (s : ℕ → ℚ) : ℕ → ℕ → ℕ × ℕ
  | 0, k => (0, k)
  | n+1, k =>
      let r := step s k
      let rest := runPoints step s n r.2
      ((if r.1 then 1 else 0) + rest.1, rest.2)

/-- The win threshold from `simulate_match_outcome`
(tennis_serve_analyzer.py line 116):
`win_threshold = 0.58 if best_of == 3 else 0.56`. -/
def winThreshold (best_of : ℤ) : ℚ :=
  if best_of = 3 then 58/100 else 56/100

/-- One simulated match (one iteration of the `for _ in range(num_sims)`
loop): the traditional point loop runs first, then the only-first point
loop, consuming the same stream in program order.  Returns
(traditional points won, only-first points won, next stream index). -/
def simTrial (fi fw sw : ℚ) (service_points : ℕ) (s : ℕ → ℚ) (k : ℕ) :
    ℕ × ℕ × ℕ :=
  let t := runPoints (tradPoint fi fw sw) s service_points k
  let o := runPoints (onlyFirstPoint fi fw) s service_points t.2
  (t.1, o.1, o.2)

/-- The outer simulation loop of `simulate_match_outcome`
(tennis_serve_analyzer.py lines 82-124): per trial, compute the two
points-won fractions (0 when service_points is 0) and increment each
strategy's win count when its fraction strictly exceeds the threshold.
Returns (traditional wins, only-first wins, next stream index). -/
def simLoop (fi fw sw : ℚ) (service_points : ℕ) (thr : ℚ) (s : ℕ → ℚ) :
    ℕ → ℕ → ℕ × ℕ × ℕ
  | 0, k => (0, 0, k)
  | n+1, k =>
      let tr := simTrial fi fw sw service_points s k
      let tpct : ℚ :=
        if service_points > 0 then (tr.1 : ℚ) / (service_points : ℚ) else 0
      let opct : ℚ :=
        if service_points > 0 then (tr.2.1 : ℚ) / (service_points : ℚ) else 0
      let rest := simLoop fi fw sw service_points thr s n tr.2.2
      ((if tpct > thr then 1 else 0) + rest.1,
       (if opct > thr then 1 else 0) + rest.2.1, rest.2.2)

/-- `simulate_match_outcome` (tennis_serve_analyzer.py lines 65-132).
`num_sims` is an integer as in Python: `range(num_sims)` iterates
`num_sims.toNat` times, and the final divisions `wins / num_sims` raise
ZeroDivisionError when `num_sims == 0`, modelled as `none`. -/
def simulate_match_outcome (fi fw sw : ℚ) (service_points : ℕ)
    (best_of num_sims : ℤ) (s : ℕ → ℚ) : Option SimResult :=
  let w := simLoop fi fw sw service_points (winThreshold best_of) s num_sims.toNat 0
  if num_sims = 0 then none
  else some
    { traditional_wins := w.1
      only_first_wins := w.2.1
      traditional_prob := (w.1 : ℚ) / (num_sims : ℚ)
      only_first_prob := (w.2.1 : ℚ) / (num_sims : ℚ)
      num_simulations := num_sims }

/-- The specification's per-point Bernoulli branching for the Traditional
strategy, stated on two explicit draws: sample first-serve-in with
probability firstIn; on success sample point-won with probability
firstWin; on failure sample point-won with probability secondWin
directly. -/
def specTraditionalPoint (fi fw sw u1 u2 : ℚ) : Bool :=
  if u1 < fi then decide (u2 < fw) else decide (u2 < sw)

/-- The specification's per-point Bernoulli branching for the OnlyFirst
strategy, stated on three explicit draws: sample first-serve-in with
probability firstIn; on success sample point-won with probability
firstWin; on failure re-sample first-serve-in with probability firstIn
and, on success, sample point-won with probability firstWin, otherwise
the point is lost (double fault).  Returns the point outcome and the
number of draws consumed. -/
def specOnlyFirstPoint (fi fw u1 u2 u3 : ℚ) : Bool × ℕ :=
  if u1 < fi then (decide (u2 < fw), 2)
  else if u2 < fi then (decide (u3 < fw), 3)
  else (false, 2)

/-- Claim C1: for every simulated match and every one of the servicePoints
service points, the simulator's per-point step follows the specified
Bernoulli branching: the Traditional step at any stream position agrees
with the spec's two-draw branching, the OnlyFirst step agrees with the
spec's three-draw branching (with matching draw consumption), and each
simulated match applies these steps once per service point in stream
order. -/
theorem per_point_step_matches_spec (fi fw sw : ℚ) (s : ℕ → ℚ) (k : ℕ) :
    tradPoint fi fw sw s k =
      (specTraditionalPoint fi fw sw (s k) (s (k+1)), k + 2) ∧
    onlyFirstPoint fi fw s k =
      ((specOnlyFirstPoint fi fw (s k) (s (k+1)) (s (k+2))).1,
       k + (specOnlyFirstPoint fi fw (s k) (s (k+1)) (s (k+2))).2) ∧
    (∀ service_points,
      simTrial fi fw sw service_points s k =
        ((runPoints (tradPoint fi fw sw) s service_points k).1,
         (runPoints (onlyFirstPoint fi fw) s service_points
            (runPoints (tradPoint fi fw sw) s service_points k).2).1,
         (runPoints (onlyFirstPoint fi fw) s service_points
            (runPoints (tradPoint fi fw sw) s service_points k).2).2)) := by
  refine ⟨?_, ?_, fun _ => rfl⟩
  · by_cases h : s k < fi <;>
      simp [tradPoint, specTraditionalPoint, h]
  · by_cases h1 : s k < fi
    · simp [onlyFirstPoint, specOnlyFirstPoint, h1]
    · by_cases h2 : s (k+1) < fi <;>
        simp [onlyFirstPoint, specOnlyFirstPoint, h1, h2]

/-- Claim C5 counterexample: calling the simulator with
numSimulations = -1 (which is < 1) does not fail at all — it returns a
result. -/
theorem negative_num_sims_counterexample :
    (simulate_match_outcome (1/2) (1/2) (1/2) 1 3 (-1) (fun _ => 0)).isSome
      = true := by
  norm_num [simulate_match_outcome]

/-- Claim C5 (amended): calling the simulator with numSimulations == 0
fails that single computation (the final wins/numSimulations division
raises a ZeroDivisionError, modelled as `none`), but numSimulations < 0
does not fail: the simulation loop body never runs and the call silently
returns a result with zero wins and zero probabilities for both
strategies. -/
theorem num_sims_validation (fi fw sw : ℚ) (sp : ℕ) (bo : ℤ) (s : ℕ → ℚ)
    (n : ℤ) (hn : n < 0) :
    simulate_match_outcome fi fw sw sp bo 0 s = none ∧
    simulate_match_outcome fi fw sw sp bo n s = some ⟨0, 0, 0, 0, n⟩ := by
  constructor
  · simp [simulate_match_outcome]
  · have h0 : n ≠ 0 := by omega
    have htn : n.toNat = 0 := by omega
    simp [simulate_match_outcome, htn, simLoop, h0]

theorem num_sims_validation_witness :
    (-1 : ℤ) < 0 ∧
    (simulate_match_outcome (1/2) (1/2) (1/2) 2 3 0 (fun _ => 0) = none ∧
     simulate_match_outcome (1/2) (1/2) (1/2) 2 3 (-1) (fun _ => 0) =
       some ⟨0, 0, 0, 0, -1⟩) :=
  ⟨by norm_num,
   num_sims_validation (1/2) (1/2) (1/2) 2 3 (fun _ => 0) (-1) (by norm_num)⟩

/-- The win threshold is strictly positive for every best_of value. -/
theorem winThreshold_pos (bo : ℤ) : 0 < winThreshold bo := by
  unfold winThreshold; split <;> norm_num

/-- With zero service points every trial scores a points-won fraction of 0
for both strategies, which never exceeds the (positive) threshold, so the
simulation loop accumulates no wins and consumes no draws. -/
theorem simLoop_zero_points (fi fw sw thr : ℚ) (s : ℕ → ℚ) (hthr : 0 < thr) :
    ∀ n k, simLoop fi fw sw 0 thr s n k = (0, 0, k) := by
  intro n
  induction n with
  | zero => intro k; rfl
  | succ m ih =>
      intro k
      have hnot : ¬ ((0:ℚ) > thr) := by linarith
      simp [simLoop, simTrial, runPoints, hnot, ih]

/-- Claim C9: for every call to the match simulator with
servicePoints == 0 and any numSimulations >= 1, the returned result has
traditionalWinProbability = 0 and onlyFirstWinProbability = 0. -/
theorem zero_service_points_prob_zero (fi fw sw : ℚ) (bo n : ℤ) (s : ℕ → ℚ)
    (hn : 1 ≤ n) :
    simulate_match_outcome fi fw sw 0 bo n s = some ⟨0, 0, 0, 0, n⟩ := by
  have h0 : n ≠ 0 := by omega
  simp [simulate_match_outcome, h0,
    simLoop_zero_points fi fw sw (winThreshold bo) s (winThreshold_pos bo)]

theorem zero_service_points_prob_zero_witness :
    (1 : ℤ) ≤ 2 ∧
    simulate_match_outcome (1/2) (1/2) (1/2) 0 3 2 (fun _ => 0) =
      some ⟨0, 0, 0, 0, 2⟩ :=
  ⟨by norm_num,
   zero_service_points_prob_zero (1/2) (1/2) (1/2) 3 2 (fun _ => 0) (by norm_num)⟩

/-- The specification's match-winning rule: after each simulated match
compute pointsWonFraction = pointsWon / servicePoints per strategy, the
strategy wins the simulated match iff that fraction strictly exceeds the
threshold, and wins are accumulated over the trials.  Draws are consumed
by the same per-point process (`simTrial`). -/
def specSimulatorWins (fi fw sw : ℚ) (sp : ℕ) (thr : ℚ) (s : ℕ → ℚ) :
    ℕ → ℕ → ℕ × ℕ
  | 0, _ => (0, 0)
  | n+1, k =>
      let tr := simTrial fi fw sw sp s k
      let rest := specSimulatorWins fi fw sw sp thr s n tr.2.2
      ((if (tr.1 : ℚ) / (sp : ℚ) > thr then 1 else 0) + rest.1,
       (if (tr.2.1 : ℚ) / (sp : ℚ) > thr then 1 else 0) + rest.2)

/-- With strictly positive service points the simulator's win counters
agree with the specification's counting rule. -/
theorem simLoop_eq_specSimulatorWins (fi fw sw : ℚ) (sp : ℕ) (thr : ℚ)
    (s : ℕ → ℚ) (hsp : 0 < sp) : ∀ n k,
    (simLoop fi fw sw sp thr s n k).1 =
      (specSimulatorWins fi fw sw sp thr s n k).1 ∧
    (simLoop fi fw sw sp thr s n k).2.1 =
      (specSimulatorWins fi fw sw sp thr s n k).2 := by
  intro n
  induction n with
  | zero => intro k; exact ⟨rfl, rfl⟩
  | succ m ih =>
      intro k
      simp [simLoop, specSimulatorWins, hsp, (ih _).1, (ih _).2]

/-- Claim C4: for every simulated match with servicePoints > 0, a strategy
wins that simulated match iff its pointsWon / servicePoints fraction
strictly exceeds the matchFormat threshold (0.58 for best-of-3, 0.56 for
best-of-5), and after numSimulations trials the returned SimulationResult
probabilities equal wins/numSimulations for each strategy. -/
theorem simulation_result_probabilities (fi fw sw : ℚ) (sp : ℕ) (bo n : ℤ)
    (s : ℕ → ℚ) (r : SimResult) (hsp : 0 < sp) (hn : 1 ≤ n)
    (hr : simulate_match_outcome fi fw sw sp bo n s = some r) :
    winThreshold 3 = 58/100 ∧ winThreshold 5 = 56/100 ∧
    r.traditional_wins =
      (specSimulatorWins fi fw sw sp (winThreshold bo) s n.toNat 0).1 ∧
    r.only_first_wins =
      (specSimulatorWins fi fw sw sp (winThreshold bo) s n.toNat 0).2 ∧
    r.traditional_prob = (r.traditional_wins : ℚ) / (n : ℚ) ∧
    r.only_first_prob = (r.only_first_wins : ℚ) / (n : ℚ) := by
  have h0 : n ≠ 0 := by omega
  simp only [simulate_match_outcome, if_neg h0, Option.some.injEq] at hr
  subst hr
  exact ⟨rfl, rfl,
    (simLoop_eq_specSimulatorWins fi fw sw sp (winThreshold bo) s hsp n.toNat 0).1,
    (simLoop_eq_specSimulatorWins fi fw sw sp (winThreshold bo) s hsp n.toNat 0).2,
    rfl, rfl⟩

theorem simulation_result_probabilities_witness :
    (0:ℕ) < 1 ∧ (1:ℤ) ≤ 1 ∧
    simulate_match_outcome 1 1 0 1 3 1 (fun _ => 0) = some ⟨1, 1, 1, 1, 1⟩ ∧
    (winThreshold 3 = 58/100 ∧ winThreshold 5 = 56/100 ∧
     (1:ℕ) = (specSimulatorWins 1 1 0 1 (winThreshold 3) (fun _ => 0)
       (1:ℤ).toNat 0).1 ∧
     (1:ℕ) = (specSimulatorWins 1 1 0 1 (winThreshold 3) (fun _ => 0)
       (1:ℤ).toNat 0).2 ∧
     (1:ℚ) = ((1:ℕ):ℚ) / ((1:ℤ):ℚ) ∧
     (1:ℚ) = ((1:ℕ):ℚ) / ((1:ℤ):ℚ)) := by
  have hr : simulate_match_outcome 1 1 0 1 3 1 (fun _ => 0) =
      some ⟨1, 1, 1, 1, 1⟩ := by
    norm_num [simulate_match_outcome, simLoop, simTrial, runPoints, tradPoint,
      onlyFirstPoint, winThreshold]
  exact ⟨by norm_num, by norm_num, hr,
    simulation_result_probabilities 1 1 0 1 3 1 (fun _ => 0) ⟨1, 1, 1, 1, 1⟩
      (by norm_num) (by norm_num) hr⟩

/-- Python's `str.lower()` on one ASCII character, as used by
`tourney_name.lower()` in `calculate_serve_advantage`
(update_data.py line 105). -/
def lowerChar (c : Char) : Char :=
  if 'A' ≤ c ∧ c ≤ 'Z' then Char.ofNat (c.toNat + 32) else c

/-- Python's `str.lower()` over a whole string (ASCII case folding). -/
def lowerStr (s : String) : String := ⟨s.data.map lowerChar⟩

/-- Prefix test on character lists, used to define substring occurrence. -/
def leadsWith : List Char → List Char → Bool
  | [], _ => true
  | _ :: _, [] => false
  | p :: ps, c :: cs => p == c && leadsWith ps cs

/-- Python's `pat in s` substring containment: `pat` occurs as a
contiguous run of characters of the list. -/
def occursIn (pat : List Char) : List Char → Bool
  | [] => pat.isEmpty
  | c :: cs => leadsWith pat (c :: cs) || occursIn pat cs

/-- `pat in s` on strings. -/
def strContainsSub (s pat : String) : Bool := occursIn pat.data s.data

/-- The fixed major-tournament marker list of `calculate_serve_advantage`
(update_data.py lines 108-109). -/
def grandSlamMarkers : List String :=
  ["australian open", "roland garros", "wimbledon", "us open"]

/-- `is_grand_slam = any(slam in tourney_name for slam in [...])`
(update_data.py lines 108-109), on the already-lowercased name. -/
def is_grand_slam (tourney_name_lower : String) : Bool :=
  grandSlamMarkers.any (fun slam => strContainsSub tourney_name_lower slam)

/-- `best_of = 5 if (is_grand_slam and tour == 'ATP') else 3`
(update_data.py lines 104-110), with the tournament name lowercased
first.  The ATP tour identifier marks the men's tour. -/
def best_of_resolver (tourney_name tour : String) : ℤ :=
  if is_grand_slam (lowerStr tourney_name) && tour == "ATP" then 5 else 3

/-- Claim C3: for every tournament name and tour, the match format is
best-of-5 iff the tournament name case-insensitively matches one of the
fixed major-tournament markers AND the match is on the men's (ATP) tour;
otherwise it is best-of-3.  In particular ("Wimbledon", men) maps to
best-of-5, ("Miami Open", men) to best-of-3, and ("Wimbledon", women) to
best-of-3. -/
theorem best_of_resolver_spec :
    (∀ tourney_name tour : String,
      best_of_resolver tourney_name tour = 5 ↔
        (is_grand_slam (lowerStr tourney_name) = true ∧ tour = "ATP")) ∧
    (∀ tourney_name tour : String,
      best_of_resolver tourney_name tour = 5 ∨
      best_of_resolver tourney_name tour = 3) ∧
    best_of_resolver "Wimbledon" "ATP" = 5 ∧
    best_of_resolver "Miami Open" "ATP" = 3 ∧
    best_of_resolver "Wimbledon" "WTA" = 3 := by
  refine ⟨?_, ?_, by decide, by decide, by decide⟩
  · intro name tour
    unfold best_of_resolver
    by_cases h : (is_grand_slam (lowerStr name) && (tour == "ATP")) = true
    · rw [if_pos h]
      rw [Bool.and_eq_true, beq_iff_eq] at h
      simp [h.1, h.2]
    · rw [if_neg h]
      rw [Bool.and_eq_true, beq_iff_eq] at h
      constructor
      · intro h35; exact absurd h35 (by norm_num)
      · intro hc; exact absurd hc h
  · intro name tour
    unfold best_of_resolver
    split
    · exact Or.inl rfl
    · exact Or.inr rfl

/-- The serve statistics of one emitted performance record, from
`calculate_serve_advantage` (tennis_serve_analyzer.py lines 167-182 /
update_data.py lines 113-123). -/
structure PerfStats where
  first_in_pct : ℚ
  first_win_pct : ℚ
  second_win_pct : ℚ
  only_first : ℚ
  traditional : ℚ
  better_flag : Bool
deriving DecidableEq

/-- One per-performance analysis step of `calculate_serve_advantage`
(tennis_serve_analyzer.py lines 167-182 / update_data.py lines 113-123)
on one server's raw counts: a record is computed only when svpt > 0,
firstIn > 0 and svpt - firstIn > 0; otherwise the performance is
skipped (`none`). -/
def processPerformance (svpt firstIn firstWon secondWon : ℚ) :
    Option PerfStats :=
  if svpt > 0 ∧ firstIn > 0 then
    if svpt - firstIn > 0 then
      some { first_in_pct := firstIn / svpt
             first_win_pct := firstWon / firstIn
             second_win_pct := secondWon / (svpt - firstIn)
             only_first := only_first_expected (firstIn / svpt) (firstWon / firstIn)
             traditional := traditional_expected (firstIn / svpt) (firstWon / firstIn)
               (secondWon / (svpt - firstIn))
             better_flag := only_first_better (firstIn / svpt) (firstWon / firstIn)
               (secondWon / (svpt - firstIn)) }
    else none
  else none

/-- Claim C10: every performance record the analysis pass emits has a
first-serve-in percentage strictly between 0 and 1 (exclusive at both
ends) and both derived win percentages computed with strictly positive
denominators, because a record is emitted only when servicePoints > 0,
firstServeInCount > 0 and servicePoints - firstServeInCount > 0. -/
theorem emitted_record_invariant (svpt firstIn firstWon secondWon : ℚ)
    (r : PerfStats)
    (h : processPerformance svpt firstIn firstWon secondWon = some r) :
    0 < r.first_in_pct ∧ r.first_in_pct < 1 ∧
    0 < firstIn ∧ 0 < svpt - firstIn ∧
    r.first_win_pct = firstWon / firstIn ∧
    r.second_win_pct = secondWon / (svpt - firstIn) := by
  unfold processPerformance at h
  split at h
  next h1 =>
    split at h
    next h2 =>
      obtain ⟨hsv, hfi⟩ := h1
      injection h with h
      subst h
      refine ⟨div_pos hfi hsv, ?_, hfi, h2, rfl, rfl⟩
      exact (div_lt_one hsv).mpr (by linarith)
    next h2 => exact Option.noConfusion h
  next h1 => exact Option.noConfusion h

theorem emitted_record_invariant_witness :
    processPerformance 4 2 1 1 = some ⟨1/2, 1/2, 1/2, 3/8, 1/2, false⟩ ∧
    (0 < (1/2 : ℚ) ∧ (1/2 : ℚ) < 1 ∧ 0 < (2 : ℚ) ∧ 0 < (4 : ℚ) - 2 ∧
     (1/2 : ℚ) = 1 / 2 ∧ (1/2 : ℚ) = 1 / ((4 : ℚ) - 2)) := by
  have h : processPerformance 4 2 1 1 =
      some ⟨1/2, 1/2, 1/2, 3/8, 1/2, false⟩ := by
    norm_num [processPerformance, only_first_expected, traditional_expected,
      only_first_better]
  exact ⟨h,
    emitted_record_invariant 4 2 1 1 ⟨1/2, 1/2, 1/2, 3/8, 1/2, false⟩ h⟩
